import Mathlib

/-!
# Verification of the Food Detection & Portion Estimation Pipeline

A shallow embedding of `src/ai-service/app/services/food_detection.py`.
Python float arithmetic is modelled over `ℚ`; `round(x, n)` is modelled as
round-half-to-even at `n` decimal digits (Python's rounding mode); `int(x)`
is truncation toward zero; `str.lower()` is ASCII lowercasing of the
character sequence.  The external detector and depth providers are modelled
by their output contracts: the detector's results as lists of raw boxes with
resolved class names, and the depth model by the statistics of the depth map
it produces (mean over the crop and image-wide maximum), or by its absence /
failure.
-/

namespace FoodDetection

/-- One entry of the `FOOD_CLASSES` table in `food_detection.py`. -/
structure FoodClassInfo where
  calories_per_100g : ℚ
  default_weight : ℚ
deriving DecidableEq

/-- The `FOOD_CLASSES` dictionary from `food_detection.py`, as an
association list in source order. -/
def FOOD_CLASSES : List (String × FoodClassInfo) :=
  [("apple", ⟨52, 182⟩),
   ("banana", ⟨89, 118⟩),
   ("orange", ⟨47, 131⟩),
   ("pizza", ⟨266, 107⟩),
   ("hamburger", ⟨295, 226⟩),
   ("sandwich", ⟨250, 150⟩),
   ("salad", ⟨20, 200⟩),
   ("rice", ⟨130, 158⟩),
   ("pasta", ⟨131, 140⟩),
   ("chicken", ⟨239, 140⟩),
   ("steak", ⟨271, 221⟩),
   ("fish", ⟨206, 154⟩),
   ("egg", ⟨155, 50⟩),
   ("bread", ⟨265, 30⟩),
   ("cake", ⟨257, 80⟩),
   ("cookie", ⟨502, 30⟩),
   ("soup", ⟨40, 240⟩),
   ("coffee", ⟨2, 240⟩),
   ("juice", ⟨45, 240⟩),
   ("milk", ⟨42, 244⟩)]

/-- Round a rational to the nearest integer, ties to even
(Python's rounding mode for `round`). -/
def rhalfEven (q : ℚ) : ℤ :=
  if q - ⌊q⌋ < 1/2 then ⌊q⌋
  else if 1/2 < q - ⌊q⌋ then ⌊q⌋ + 1
  else if ⌊q⌋ % 2 = 0 then ⌊q⌋ else ⌊q⌋ + 1

/-- Python's `round(q, p)`: round to `p` decimal places, ties to even. -/
def roundTo (p : ℕ) (q : ℚ) : ℚ :=
  (rhalfEven (q * 10 ^ p) : ℚ) / 10 ^ p

/-- Python's `int(q)` on a float: truncation toward zero. -/
def truncInt (q : ℚ) : ℤ :=
  if 0 ≤ q then ⌊q⌋ else -⌊-q⌋

/-- Python's `str.lower()` restricted to ASCII (all labels in the pipeline
are ASCII). -/
def str_lower (s : String) : String :=
  ⟨s.data.map Char.toLower⟩

/-- The decoded image as `_estimate_portion` sees it: a numpy array whose
`shape` is `(height, width, channels)` together with its pixel content
(modelled as a function from coordinates to a channel value). -/
structure NpImage where
  height : ℕ
  width : ℕ
  pixel : ℕ → ℕ → ℕ → ℚ

/-- A bounding box `(x1, y1, x2, y2)` in pixel coordinates, as produced by
`box.xyxy[0].tolist()` (floats, modelled as rationals). -/
structure BBox where
  x1 : ℚ
  y1 : ℚ
  x2 : ℚ
  y2 : ℚ
deriving DecidableEq

/-- `image_area = image.shape[0] * image.shape[1]` in `_estimate_portion`. -/
def image_area (image : NpImage) : ℚ :=
  (image.height : ℚ) * (image.width : ℚ)

/-- `food_area = (x2 - x1) * (y2 - y1)` in `_estimate_portion`. -/
def food_area (b : BBox) : ℚ :=
  (b.x2 - b.x1) * (b.y2 - b.y1)

/-- `area_ratio = food_area / image_area` in `_estimate_portion`. -/
def area_ratio (image : NpImage) (b : BBox) : ℚ :=
  food_area b / image_area image

/-- Default weight lookup in `_estimate_portion`:
`FOOD_CLASSES[food_name]['default_weight']` if the key is present,
else the fallback `100`. -/
def default_weight_of (food_name : String) : ℚ :=
  match FOOD_CLASSES.lookup food_name with
  | some info => info.default_weight
  | none => 100

/-- `typical_ratio = 0.15` in `_estimate_portion`. -/
def typical_ratio : ℚ := 15 / 100

/-- `scale_factor = max(0.5, min(2.0, area_ratio / typical_ratio))`
in `_estimate_portion`. -/
def scale_factor (image : NpImage) (b : BBox) : ℚ :=
  max (1/2) (min 2 (area_ratio image b / typical_ratio))

/-- `estimated_weight = default_weight * scale_factor`
in `_estimate_portion` (before any depth blending and rounding). -/
def geometric_estimate (image : NpImage) (food_name : String) (b : BBox) : ℚ :=
  default_weight_of food_name * scale_factor image b

/-- The bounding box after `[int(v) for v in bbox]`
in `_depth_based_estimation`. -/
structure IntBBox where
  x1 : ℤ
  y1 : ℤ
  x2 : ℤ
  y2 : ℤ
deriving DecidableEq

/-- `[int(v) for v in bbox]` in `_depth_based_estimation`. -/
def intBBox (b : BBox) : IntBBox :=
  ⟨truncInt b.x1, truncInt b.y1, truncInt b.x2, truncInt b.y2⟩

/-- The `estimated_grams` value computed in `_depth_based_estimation`:
`area * (avg_depth / max_depth) * 0.001`, where `avg_depth` is the mean
depth inside the cropped box and `max_depth` the image-wide maximum of the
depth map produced by the depth provider (both taken here as inputs, since
the depth map is external data). -/
def depth_estimated_grams (b : IntBBox) (avg_depth max_depth : ℚ) : ℚ :=
  ((b.x2 - b.x1) * (b.y2 - b.y1) : ℤ) * (avg_depth / max_depth) * (1/1000)

/-- The return value of `_depth_based_estimation`:
`estimated_grams if estimated_grams > 10 else None`. -/
def depth_based_estimation (b : IntBBox) (avg_depth max_depth : ℚ) : Option ℚ :=
  if 10 < depth_estimated_grams b avg_depth max_depth then
    some (depth_estimated_grams b avg_depth max_depth)
  else none

/-- State of the optional depth provider for one analysis call:
`absent` — `model_loader.get_model('depth_estimation')` returns `None`;
`errors` — `_depth_based_estimation` raises (the exception is caught and
logged in `_estimate_portion`); `returns avg max` — the depth model runs
and its depth map has crop mean `avg` and image-wide maximum `max`. -/
inductive DepthModelState where
  | absent
  | errors
  | returns (avg_depth max_depth : ℚ)
deriving DecidableEq

/-- What the depth stage contributes inside `_estimate_portion`: `none`
when the model is absent or raised, otherwise `_depth_based_estimation`'s
return value. -/
def depth_stage (b : BBox) : DepthModelState → Option ℚ
  | .absent => none
  | .errors => none
  | .returns avg_depth max_depth =>
      depth_based_estimation (intBBox b) avg_depth max_depth

/-- `_estimate_portion`: the geometric estimate, blended with the depth
estimate when one is produced (`if depth_estimate:` — Python truthiness, so
`None` and `0.0` both skip the blend), then `round(_, 1)`. -/
def estimate_portion (image : NpImage) (food_name : String) (b : BBox)
    (depth : DepthModelState) : ℚ :=
  roundTo 1 <|
    match depth_stage b depth with
    | some d =>
        if d = 0 then geometric_estimate image food_name b
        else (geometric_estimate image food_name b + d) / 2
    | none => geometric_estimate image food_name b

/-- The fuzzy-alias dictionary `mappings` inside `_map_to_food_class`. -/
def mappings : List (String × Option String) :=
  [("hot dog", some "hotdog"),
   ("french fries", some "fries"),
   ("doughnut", some "donut"),
   ("cup", some "coffee"),
   ("bowl", some "soup"),
   ("plate", none)]

/-- `_map_to_food_class`: lowercase the label; return it if it is a key of
`FOOD_CLASSES`; otherwise `mappings.get(detected_lower, detected_lower)`
(a `None` value in the alias table drops the label). -/
def map_to_food_class (detected_class : String) : Option String :=
  if (FOOD_CLASSES.lookup (str_lower detected_class)).isSome then
    some (str_lower detected_class)
  else
    match mappings.lookup (str_lower detected_class) with
    | some v => v
    | none => some (str_lower detected_class)

/-- One raw detection after the provider resolves class ids to names:
`result.names[int(box.cls[0])]`, `float(box.conf[0])`,
`box.xyxy[0].tolist()`. -/
structure Detection where
  class_name : String
  confidence : ℚ
  bbox : BBox
deriving DecidableEq

/-- The `food_info` dictionary appended to `detected_foods` in
`analyze_image`. -/
structure DetectedFood where
  name : String
  confidence : ℚ
  x : ℤ
  y : ℤ
  width : ℤ
  height : ℤ
deriving DecidableEq

/-- The dictionary returned by `analyze_image`. -/
structure AnalysisResult where
  detected_foods : List DetectedFood
  portion_estimates : List (String × ℚ)
  width : ℕ
  height : ℕ
deriving DecidableEq

/-- Python dict assignment `d[k] = v` on an association list whose keys are
unique: replace the value at the first occurrence of `k`, else append. -/
def dictInsert : List (String × ℚ) → String → ℚ → List (String × ℚ)
  | [], k, v => [(k, v)]
  | (k', v') :: rest, k, v =>
      if k' = k then (k, v) :: rest else (k', v') :: dictInsert rest k v

/-- The body of the inner `for box in boxes` loop of `analyze_image`,
acting on the accumulated `(detected_foods, portion_estimates)`:
map the label, test `if food_name:` (Python truthiness — `None` and the
empty string are both skipped), append the `food_info` entry, and, when
portion estimation is requested, store the portion estimate under the food
name. -/
def process_box (image : NpImage) (include_portion_estimate : Bool)
    (depth : DepthModelState)
    (acc : List DetectedFood × List (String × ℚ)) (det : Detection) :
    List DetectedFood × List (String × ℚ) :=
  match map_to_food_class det.class_name with
  | none => acc
  | some food_name =>
      if food_name = "" then acc
      else
        (acc.1 ++
          [{ name := food_name,
             confidence := roundTo 3 det.confidence,
             x := truncInt det.bbox.x1,
             y := truncInt det.bbox.y1,
             width := truncInt (det.bbox.x2 - det.bbox.x1),
             height := truncInt (det.bbox.y2 - det.bbox.y1) }],
         if include_portion_estimate then
           dictInsert acc.2 food_name
             (estimate_portion image food_name det.bbox depth)
         else acc.2)

/-- `analyze_image`, given the detector provider's output (`results`, each
with its list of boxes; a `None`/empty `boxes` is just an empty list — the
`continue` skips it): fold the loop body over all boxes and assemble the
result dictionary with the image dimensions. -/
def analyze_image (image : NpImage) (results : List (List Detection))
    (include_portion_estimate : Bool) (depth : DepthModelState) :
    AnalysisResult :=
  let pr := results.flatten.foldl
    (process_box image include_portion_estimate depth) ([], [])
  ⟨pr.1, pr.2, image.width, image.height⟩

/-! ## Concrete inputs used by scenarios, witnesses and counterexamples -/

/-- Test image and box for the concrete scenarios. -/
def img1000 : NpImage := ⟨1000, 1000, fun _ _ _ => 0⟩

def b6 : BBox := ⟨100, 100, 400, 400⟩

/-- A detection whose bounding box has zero width. -/
def degenerateDet : Detection := ⟨"apple", 9/10, ⟨100, 100, 100, 400⟩⟩

/-- The apple detection of the C6 scenario. -/
def appleDet : Detection := ⟨"apple", 9/10, b6⟩

/-- A second "apple" detection with a different box (used to witness the
overwrite behavior). -/
def appleDet2 : Detection := ⟨"apple", 1, ⟨0, 0, 500, 500⟩⟩

/-- `det` is a kept detection whose food key is `k`: the mapper sends its
label to `k` and `k` survives the `if food_name:` truthiness test. -/
def producesKey (k : String) (det : Detection) : Bool :=
  decide (map_to_food_class det.class_name = some k ∧ k ≠ "")

/-! ## Helper lemmas -/

theorem rhalfEven_ge {z : ℤ} {t : ℚ} (h : (z : ℚ) ≤ t) : z ≤ rhalfEven t := by
  have hf : z ≤ ⌊t⌋ := Int.le_floor.mpr h
  unfold rhalfEven
  split_ifs <;> omega

theorem rhalfEven_le {z : ℤ} {t : ℚ} (h : t ≤ (z : ℚ)) : rhalfEven t ≤ z := by
  have hf : ⌊t⌋ ≤ z := by
    have h2 := Int.floor_le_floor h
    simpa using h2
  have hfl : (⌊t⌋ : ℚ) ≤ t := Int.floor_le t
  unfold rhalfEven
  split_ifs with h1 h2 h3
  · exact hf
  all_goals {
    have hh : (1:ℚ)/2 ≤ t - ⌊t⌋ := by linarith
    have hlt : ⌊t⌋ < z := by
      by_contra hc
      have hez : ⌊t⌋ = z := le_antisymm hf (not_lt.mp hc)
      rw [hez] at hh
      linarith
    omega
  }

theorem roundTo_one_bounds (x : ℚ) (za zb : ℤ)
    (h1 : (za : ℚ) ≤ x * 10) (h2 : x * 10 ≤ (zb : ℚ)) :
    (za : ℚ) / 10 ≤ roundTo 1 x ∧ roundTo 1 x ≤ (zb : ℚ) / 10 := by
  have hx : roundTo 1 x = (rhalfEven (x * 10) : ℚ) / 10 := by
    simp [roundTo]
  rw [hx]
  have hge := rhalfEven_ge h1
  have hle := rhalfEven_le h2
  constructor
  · gcongr
  · gcongr

theorem lookup_mem_values {l : List (String × FoodClassInfo)} {a : String}
    {b : FoodClassInfo} (h : l.lookup a = some b) : b ∈ l.map Prod.snd := by
  induction l with
  | nil => simp at h
  | cons p rest ih =>
      obtain ⟨k, v⟩ := p
      rw [List.lookup_cons] at h
      cases hbeq : (a == k) with
      | true => rw [hbeq] at h; simp at h; simp [h]
      | false =>
          rw [hbeq] at h
          simp at h
          simp only [List.map_cons, List.mem_cons]
          exact Or.inr (ih h)

theorem default_weight_int (name : String) :
    0 < default_weight_of name ∧
      ((default_weight_of name).num : ℚ) = default_weight_of name := by
  have tableOK : ∀ i ∈ FOOD_CLASSES.map Prod.snd,
      0 < i.default_weight ∧ i.default_weight.den = 1 := by decide
  unfold default_weight_of
  rcases hl : FOOD_CLASSES.lookup name with _ | info
  · norm_num
  · obtain ⟨hpos, hden⟩ := tableOK _ (lookup_mem_values hl)
    exact ⟨hpos, (Rat.den_eq_one_iff _).mp hden⟩


/-- C1: for every image (width>0, height>0), bounding box, and food key,
the geometric portion estimator returns
`round(default_weight * clamp(area_ratio/0.15, 0.5, 2.0), 1)` with the
clamp exactly 0.5 below the lower edge, exactly 2.0 above the upper edge,
and `area_ratio/0.15` in between; the result is positive and lies in
`[0.5, 2.0] × default_weight`. -/
theorem geometric_estimator_spec (image : NpImage) (food_name : String)
    (b : BBox) (_hw : 0 < image.width) (_hh : 0 < image.height) :
    estimate_portion image food_name b .absent
        = roundTo 1 (default_weight_of food_name * scale_factor image b)
      ∧ (area_ratio image b / typical_ratio < 1/2 → scale_factor image b = 1/2)
      ∧ (2 < area_ratio image b / typical_ratio → scale_factor image b = 2)
      ∧ (1/2 ≤ area_ratio image b / typical_ratio →
           area_ratio image b / typical_ratio ≤ 2 →
           scale_factor image b = area_ratio image b / typical_ratio)
      ∧ 0 < estimate_portion image food_name b .absent
      ∧ default_weight_of food_name * (1/2)
          ≤ estimate_portion image food_name b .absent
      ∧ estimate_portion image food_name b .absent
          ≤ default_weight_of food_name * 2 := by
  obtain ⟨hpos, hnum⟩ := default_weight_int food_name
  set dw := default_weight_of food_name with hdw
  set s := area_ratio image b / typical_ratio with hs
  have hscale : scale_factor image b = max (1/2) (min 2 s) := rfl
  have hsc_lb : (1/2 : ℚ) ≤ scale_factor image b := by
    rw [hscale]; exact le_max_left _ _
  have hsc_ub : scale_factor image b ≤ 2 := by
    rw [hscale]; exact max_le (by norm_num) (min_le_left _ _)
  have heq : estimate_portion image food_name b .absent
      = roundTo 1 (dw * scale_factor image b) := rfl
  have hb1 : dw * (1/2) ≤ dw * scale_factor image b :=
    mul_le_mul_of_nonneg_left hsc_lb hpos.le
  have hb2 : dw * scale_factor image b ≤ dw * 2 :=
    mul_le_mul_of_nonneg_left hsc_ub hpos.le
  have hza : ((5 * dw.num : ℤ) : ℚ) = dw * (1/2) * 10 := by
    push_cast
    rw [hnum]
    ring
  have hzb : ((20 * dw.num : ℤ) : ℚ) = dw * 2 * 10 := by
    push_cast
    rw [hnum]
    ring
  have hr := roundTo_one_bounds (dw * scale_factor image b)
      (5 * dw.num) (20 * dw.num)
      (by rw [hza]; nlinarith) (by rw [hzb]; nlinarith)
  rw [hza] at hr
  rw [hzb] at hr
  have e1 : dw * (1/2) * 10 / 10 = dw * (1/2) := by ring
  have e2 : dw * 2 * 10 / 10 = dw * 2 := by ring
  rw [e1, e2] at hr
  refine ⟨heq, ?_, ?_, ?_, ?_, ?_, ?_⟩
  · intro h
    rw [hscale, min_eq_right (by linarith : s ≤ 2),
      max_eq_left (by linarith : s ≤ 1/2)]
  · intro h
    rw [hscale, min_eq_left (by linarith : (2:ℚ) ≤ s)]
    exact max_eq_right (by norm_num)
  · intro h1 h2
    rw [hscale, min_eq_right h2, max_eq_right h1]
  · calc (0:ℚ) < dw * (1/2) := by nlinarith
    _ ≤ _ := by rw [heq]; exact hr.1
  · rw [heq]; exact hr.1
  · rw [heq]; exact hr.2

/-- Witness for C1 at the concrete apple scenario input. -/
theorem geometric_estimator_spec_witness :
    estimate_portion img1000 "apple" b6 .absent
        = roundTo 1 (default_weight_of "apple" * scale_factor img1000 b6)
      ∧ (area_ratio img1000 b6 / typical_ratio < 1/2 →
           scale_factor img1000 b6 = 1/2)
      ∧ (2 < area_ratio img1000 b6 / typical_ratio →
           scale_factor img1000 b6 = 2)
      ∧ (1/2 ≤ area_ratio img1000 b6 / typical_ratio →
           area_ratio img1000 b6 / typical_ratio ≤ 2 →
           scale_factor img1000 b6 = area_ratio img1000 b6 / typical_ratio)
      ∧ 0 < estimate_portion img1000 "apple" b6 .absent
      ∧ default_weight_of "apple" * (1/2)
          ≤ estimate_portion img1000 "apple" b6 .absent
      ∧ estimate_portion img1000 "apple" b6 .absent
          ≤ default_weight_of "apple" * 2 :=
  geometric_estimator_spec img1000 "apple" b6 (by decide) (by decide)


/-- C2: whenever the depth stage contributes no estimate — the model is
absent, the estimation raises, or the computed depth grams are ≤ 10 (noise,
returning no estimate rather than a number) — the analysis does not fail
and the final portion estimate equals the geometric estimate alone, rounded
to one decimal place. -/
theorem depth_absent_geometric_only (image : NpImage) (food_name : String)
    (b : BBox) (depth : DepthModelState)
    (h : depth = .absent ∨ depth = .errors ∨
         ∃ avg_depth max_depth, depth = .returns avg_depth max_depth ∧
           depth_estimated_grams (intBBox b) avg_depth max_depth ≤ 10) :
    depth_stage b depth = none ∧
    estimate_portion image food_name b depth
      = roundTo 1 (geometric_estimate image food_name b) := by
  have hnone : depth_stage b depth = none := by
    rcases h with rfl | rfl | ⟨avg_depth, max_depth, rfl, hle⟩
    · rfl
    · rfl
    · simp [depth_stage, depth_based_estimation, not_lt.mpr hle]
  refine ⟨hnone, ?_⟩
  simp only [estimate_portion, hnone]

/-- Witness for C2: a depth map whose computed grams are below the noise
threshold is rejected and the geometric estimate is used alone. -/
theorem depth_absent_geometric_only_witness :
    depth_stage b6 (.returns 1 1000000) = none ∧
    estimate_portion img1000 "apple" b6 (.returns 1 1000000)
      = roundTo 1 (geometric_estimate img1000 "apple" b6) :=
  depth_absent_geometric_only img1000 "apple" b6 (.returns 1 1000000)
    (Or.inr (Or.inr ⟨1, 1000000, rfl, by
      norm_num [depth_estimated_grams, intBBox, truncInt, b6,
        Int.floor_eq_iff]⟩))

/-- C3: when a depth estimate above the noise threshold is produced, the
final portion estimate is the arithmetic mean of the geometric and depth
estimates, within one-decimal rounding; in the concrete scenario (box area
90,000, normalized depth 0.5, calibration constant 0.001) the depth signal
is 45 g, and blended with the geometric 109.2 g the final value is
77.1 g. -/
theorem blend_arithmetic_mean (image : NpImage) (food_name : String)
    (b : BBox) (avg_depth max_depth : ℚ)
    (h : 10 < depth_estimated_grams (intBBox b) avg_depth max_depth) :
    estimate_portion image food_name b (.returns avg_depth max_depth)
        = roundTo 1 ((geometric_estimate image food_name b
            + depth_estimated_grams (intBBox b) avg_depth max_depth) / 2)
      ∧ depth_estimated_grams (intBBox b6) 1 2 = 45
      ∧ geometric_estimate img1000 "apple" b6 = 546/5
      ∧ estimate_portion img1000 "apple" b6 (.returns 1 2) = 771/10 := by
  have hsome : depth_stage b (.returns avg_depth max_depth)
      = some (depth_estimated_grams (intBBox b) avg_depth max_depth) := by
    simp [depth_stage, depth_based_estimation, h]
  have hne : depth_estimated_grams (intBBox b) avg_depth max_depth ≠ 0 := by
    intro h0
    rw [h0] at h
    norm_num at h
  refine ⟨?_, ?_, ?_, ?_⟩
  · simp only [estimate_portion, hsome]
    rw [if_neg hne]
  · norm_num [depth_estimated_grams, intBBox, truncInt, b6, Int.floor_eq_iff]
  · norm_num [geometric_estimate, default_weight_of, FOOD_CLASSES,
      List.lookup, scale_factor, area_ratio, food_area, image_area,
      typical_ratio, img1000, b6]
  · norm_num [estimate_portion, depth_stage, depth_based_estimation,
      depth_estimated_grams, intBBox, truncInt, geometric_estimate,
      default_weight_of, FOOD_CLASSES, List.lookup, scale_factor,
      area_ratio, food_area, image_area, typical_ratio, img1000, b6,
      roundTo, rhalfEven, Int.floor_eq_iff]

/-- Witness for C3 at the concrete scenario (normalized depth 0.5 over box
area 90,000). -/
theorem blend_arithmetic_mean_witness :
    estimate_portion img1000 "apple" b6 (.returns 1 2)
        = roundTo 1 ((geometric_estimate img1000 "apple" b6
            + depth_estimated_grams (intBBox b6) 1 2) / 2)
      ∧ depth_estimated_grams (intBBox b6) 1 2 = 45
      ∧ geometric_estimate img1000 "apple" b6 = 546/5
      ∧ estimate_portion img1000 "apple" b6 (.returns 1 2) = 771/10 :=
  blend_arithmetic_mean img1000 "apple" b6 1 2 (by
    norm_num [depth_estimated_grams, intBBox, truncInt, b6,
      Int.floor_eq_iff])


/-- C4 counterexample: `"Burrito"` matches no taxonomy key and no alias
entry, yet it is not passed through unchanged — the mapper returns its
lowercased form `"burrito"`. -/
theorem taxonomy_mapper_passthrough_counterexample :
    (FOOD_CLASSES.lookup (str_lower "Burrito")).isSome = false
    ∧ mappings.lookup (str_lower "Burrito") = none
    ∧ map_to_food_class "Burrito" = some "burrito"
    ∧ map_to_food_class "Burrito" ≠ some "Burrito" := by decide

/-- C4 amended: the mapper returns the lowercased canonical key on a
case-insensitive taxonomy match, maps the listed alias variants, drops
labels with no canonical meaning ("plate" produces no entry in
`detected_foods` or `portion_estimates`), and passes the lowercased form
of every other label through as a food key. -/
theorem taxonomy_mapper_spec (label : String) (image : NpImage)
    (det : Detection) (include_portion_estimate : Bool)
    (depth : DepthModelState) (hplate : det.class_name = "plate") :
    ((FOOD_CLASSES.lookup (str_lower label)).isSome →
        map_to_food_class label = some (str_lower label))
    ∧ map_to_food_class "hot dog" = some "hotdog"
    ∧ map_to_food_class "cup" = some "coffee"
    ∧ map_to_food_class "bowl" = some "soup"
    ∧ map_to_food_class "plate" = none
    ∧ analyze_image image [[det]] include_portion_estimate depth
        = ⟨[], [], image.width, image.height⟩
    ∧ ((FOOD_CLASSES.lookup (str_lower label)).isSome = false →
        mappings.lookup (str_lower label) = none →
        map_to_food_class label = some (str_lower label)) := by
  refine ⟨?_, by decide, by decide, by decide, by decide, ?_, ?_⟩
  · intro h
    simp [map_to_food_class, h]
  · simp [analyze_image, process_box, hplate,
      show map_to_food_class "plate" = none from by decide]
  · intro h1 h2
    simp [map_to_food_class, h1, h2]

/-- Witness for C4 amended, at the label "Burrito" and a "plate"
detection. -/
theorem taxonomy_mapper_spec_witness :
    ((FOOD_CLASSES.lookup (str_lower "Burrito")).isSome →
        map_to_food_class "Burrito" = some (str_lower "Burrito"))
    ∧ map_to_food_class "hot dog" = some "hotdog"
    ∧ map_to_food_class "cup" = some "coffee"
    ∧ map_to_food_class "bowl" = some "soup"
    ∧ map_to_food_class "plate" = none
    ∧ analyze_image img1000 [[⟨"plate", 9/10, b6⟩]] true .absent
        = ⟨[], [], img1000.width, img1000.height⟩
    ∧ ((FOOD_CLASSES.lookup (str_lower "Burrito")).isSome = false →
        mappings.lookup (str_lower "Burrito") = none →
        map_to_food_class "Burrito" = some (str_lower "Burrito")) :=
  taxonomy_mapper_spec "Burrito" img1000 ⟨"plate", 9/10, b6⟩ true .absent rfl

/-- C5 counterexample: a detection with a zero-width bounding box is NOT
dropped — it contributes an entry to `detected_foods` and an entry to
`portion_estimates` (182 g × the minimum scale factor 0.5 = 91.0 g). -/
theorem degenerate_box_counterexample :
    (analyze_image img1000 [[degenerateDet]] true .absent).detected_foods
      = [⟨"apple", 9/10, 100, 100, 0, 300⟩]
    ∧ (analyze_image img1000 [[degenerateDet]] true .absent).portion_estimates
      = [("apple", 91)] := by
  norm_num [analyze_image, process_box, degenerateDet, dictInsert,
    show map_to_food_class "apple" = some "apple" from by decide,
    truncInt, estimate_portion, depth_stage, geometric_estimate,
    default_weight_of, FOOD_CLASSES, List.lookup, scale_factor, area_ratio,
    food_area, image_area, typical_ratio, img1000, roundTo, rhalfEven,
    Int.floor_eq_iff, show ¬("apple" = "") from by decide]

/-- C5 amended: a detection with degenerate geometry is processed like any
other, silently and without error: it contributes its entries, a zero-area
box receiving the minimum scale factor 0.5. -/
theorem degenerate_box_kept (image : NpImage) (det : Detection) (k : String)
    (hmap : map_to_food_class det.class_name = some k) (hk : k ≠ "")
    (hzero : det.bbox.x2 = det.bbox.x1) :
    (analyze_image image [[det]] true .absent).detected_foods ≠ []
    ∧ (analyze_image image [[det]] true .absent).portion_estimates
        = [(k, roundTo 1 (default_weight_of k * (1/2)))] := by
  have hfa : food_area det.bbox = 0 := by
    simp [food_area, hzero]
  have hsf : scale_factor image det.bbox = 1/2 := by
    simp [scale_factor, area_ratio, hfa, typical_ratio]
  have hest : estimate_portion image k det.bbox .absent
      = roundTo 1 (default_weight_of k * (1/2)) := by
    simp only [estimate_portion, depth_stage, geometric_estimate, hsf]
  constructor
  · simp [analyze_image, process_box, hmap, hk]
  · simp [analyze_image, process_box, hmap, hk, dictInsert, hest]

/-- Witness for C5 amended at the concrete zero-width detection. -/
theorem degenerate_box_kept_witness :
    (analyze_image img1000 [[degenerateDet]] true .absent).detected_foods ≠ []
    ∧ (analyze_image img1000 [[degenerateDet]] true .absent).portion_estimates
        = [("apple", roundTo 1 (default_weight_of "apple" * (1/2)))] :=
  degenerate_box_kept img1000 degenerateDet "apple" (by decide) (by decide)
    (by norm_num [degenerateDet])

/-- C6: the 1000×1000 image with one "apple" detection at confidence 0.9
and box (100,100)-(400,400), no depth provider: area ratio 0.09, scale
factor 0.6, default weight 182, final estimate exactly 109.2 g. -/
theorem apple_scenario :
    area_ratio img1000 b6 = 9/100
    ∧ scale_factor img1000 b6 = 6/10
    ∧ default_weight_of "apple" = 182
    ∧ analyze_image img1000 [[appleDet]] true .absent
        = ⟨[⟨"apple", 9/10, 100, 100, 300, 300⟩],
           [("apple", 546/5)], 1000, 1000⟩ := by
  refine ⟨?_, ?_, ?_, ?_⟩
  · norm_num [area_ratio, food_area, image_area, img1000, b6]
  · norm_num [scale_factor, area_ratio, food_area, image_area,
      typical_ratio, img1000, b6]
  · norm_num [default_weight_of, FOOD_CLASSES, List.lookup]
  · norm_num [analyze_image, process_box, appleDet, dictInsert,
      show map_to_food_class "apple" = some "apple" from by decide,
      truncInt, estimate_portion, depth_stage, geometric_estimate,
      default_weight_of, FOOD_CLASSES, List.lookup, scale_factor,
      area_ratio, food_area, image_area, typical_ratio, img1000, b6,
      roundTo, rhalfEven, Int.floor_eq_iff,
      show ¬("apple" = "") from by decide]


theorem process_box_dropped {image : NpImage} {inc : Bool}
    {depth : DepthModelState} {acc} {det : Detection}
    (h : map_to_food_class det.class_name = none ∨
         map_to_food_class det.class_name = some "") :
    process_box image inc depth acc det = acc := by
  rcases h with h | h <;> simp [process_box, h]

theorem foldl_process_box_dropped (image : NpImage) (inc : Bool)
    (depth : DepthModelState) :
    ∀ (l : List Detection) acc,
      (∀ det ∈ l, map_to_food_class det.class_name = none ∨
          map_to_food_class det.class_name = some "") →
      l.foldl (process_box image inc depth) acc = acc := by
  intro l
  induction l with
  | nil => intro acc _; rfl
  | cons d t ih =>
      intro acc h
      rw [List.foldl_cons, process_box_dropped (h d (by simp))]
      exact ih acc fun det hm => h det (by simp [hm])

/-- C7: an analysis in which no detection qualifies — no boxes at all, or
every box dropped by the taxonomy mapper / the `if food_name:` truthiness
test — returns a normal result with empty `detected_foods` and empty
`portion_estimates` together with the image dimensions. -/
theorem empty_analysis (image : NpImage) (results : List (List Detection))
    (inc : Bool) (depth : DepthModelState)
    (h : ∀ det ∈ results.flatten,
        map_to_food_class det.class_name = none ∨
        map_to_food_class det.class_name = some "") :
    analyze_image image results inc depth
      = ⟨[], [], image.width, image.height⟩ := by
  unfold analyze_image
  rw [foldl_process_box_dropped image inc depth results.flatten ([], []) h]

/-- Witness for C7: one result with a "plate" box and one empty result
yield an empty analysis. -/
theorem empty_analysis_witness :
    analyze_image img1000 [[⟨"plate", 9/10, b6⟩], []] true .absent
      = ⟨[], [], img1000.width, img1000.height⟩ :=
  empty_analysis img1000 [[⟨"plate", 9/10, b6⟩], []] true .absent
    (by decide)

/-- C10: with the depth model absent, the portion estimate depends only on
the image dimensions, the bounding box, and the food key — not on the
pixel content: two images of equal dimensions give identical estimates. -/
theorem portion_estimate_pixel_independent (img1 img2 : NpImage)
    (food_name : String) (b : BBox)
    (hw : img1.width = img2.width) (hh : img1.height = img2.height) :
    estimate_portion img1 food_name b .absent
      = estimate_portion img2 food_name b .absent := by
  simp only [estimate_portion, depth_stage, geometric_estimate,
    scale_factor, area_ratio, image_area, hw, hh]

/-- Witness for C10: same dimensions, different pixel content. -/
theorem portion_estimate_pixel_independent_witness :
    estimate_portion img1000 "apple" b6 .absent
      = estimate_portion ⟨1000, 1000, fun _ _ _ => 1⟩ "apple" b6 .absent :=
  portion_estimate_pixel_independent img1000 ⟨1000, 1000, fun _ _ _ => 1⟩
    "apple" b6 rfl rfl


theorem lookup_dictInsert_self (d : List (String × ℚ)) (k : String) (v : ℚ) :
    (dictInsert d k v).lookup k = some v := by
  induction d with
  | nil => simp [dictInsert, List.lookup_cons]
  | cons p rest ih =>
      obtain ⟨k', v'⟩ := p
      by_cases hk : k' = k
      · subst hk
        simp [dictInsert, List.lookup_cons]
      · simp only [dictInsert, if_neg hk, List.lookup_cons,
          show (k == k') = false from by simp [Ne.symm hk]]
        exact ih

theorem lookup_dictInsert_ne (d : List (String × ℚ)) {k k' : String}
    (v : ℚ) (h : k ≠ k') :
    (dictInsert d k' v).lookup k = d.lookup k := by
  induction d with
  | nil =>
      simp only [dictInsert, List.lookup_cons, List.lookup_nil,
        show (k == k') = false from by simp [h]]
  | cons p rest ih =>
      obtain ⟨k'', v''⟩ := p
      by_cases hk : k'' = k'
      · subst hk
        simp [dictInsert, List.lookup_cons,
          show (k == k'') = false from by simp [h]]
      · simp only [dictInsert, if_neg hk, List.lookup_cons]
        cases hbeq : k == k'' with
        | true => rfl
        | false => exact ih

theorem mem_keys_dictInsert {d : List (String × ℚ)} {k a : String} {v : ℚ} :
    a ∈ (dictInsert d k v).map Prod.fst ↔ a ∈ d.map Prod.fst ∨ a = k := by
  induction d with
  | nil => simp [dictInsert]
  | cons p rest ih =>
      obtain ⟨k', v'⟩ := p
      by_cases hk : k' = k
      · subst hk
        simp [dictInsert]
        tauto
      · simp [dictInsert, hk, ih]
        tauto

theorem nodup_keys_dictInsert {d : List (String × ℚ)} {k : String} {v : ℚ}
    (h : (d.map Prod.fst).Nodup) :
    ((dictInsert d k v).map Prod.fst).Nodup := by
  induction d with
  | nil => simp [dictInsert]
  | cons p rest ih =>
      obtain ⟨k', v'⟩ := p
      simp only [List.map_cons, List.nodup_cons] at h
      by_cases hk : k' = k
      · subst hk
        simpa [dictInsert] using h
      · simp only [dictInsert, if_neg hk, List.map_cons, List.nodup_cons]
        refine ⟨?_, ih h.2⟩
        intro hmem
        rcases mem_keys_dictInsert.mp hmem with hm | hm
        · exact h.1 hm
        · exact hk hm

theorem lookup_foldl_process_box (image : NpImage) (depth : DepthModelState)
    (k : String) :
    ∀ (l : List Detection) (acc : List DetectedFood × List (String × ℚ)),
      ((l.foldl (process_box image true depth) acc).2).lookup k
        = match l.reverse.find? (producesKey k) with
          | some det => some (estimate_portion image k det.bbox depth)
          | none => acc.2.lookup k := by
  intro l
  induction l with
  | nil => intro acc; rfl
  | cons d t ih =>
      intro acc
      rw [List.foldl_cons, ih, List.reverse_cons, List.find?_append]
      cases hf : t.reverse.find? (producesKey k) with
      | some det => rfl
      | none =>
          simp only [Option.none_or]
          rcases hm : map_to_food_class d.class_name with _ | name
          · have hpk : producesKey k d = false := by
              simp [producesKey, hm]
            rw [process_box_dropped (Or.inl hm)]
            simp [List.find?_cons, hpk]
          · by_cases hne : name = ""
            · subst hne
              have hpk : producesKey k d = false := by
                by_cases hk0 : k = ""
                · subst hk0; simp [producesKey]
                · simp [producesKey, hm, Ne.symm hk0]
              rw [process_box_dropped (Or.inr hm)]
              simp [List.find?_cons, hpk]
            · have hpb : (process_box image true depth acc d).2
                  = dictInsert acc.2 name
                      (estimate_portion image name d.bbox depth) := by
                simp [process_box, hm, hne]
              rw [hpb]
              by_cases hkn : name = k
              · subst hkn
                have hpk : producesKey name d = true := by
                  simp [producesKey, hm, hne]
                simp [List.find?_cons, hpk, lookup_dictInsert_self]
              · have hpk : producesKey k d = false := by
                  simp [producesKey, hm, hkn]
                simp [List.find?_cons, hpk,
                  lookup_dictInsert_ne acc.2 _ (fun he => hkn he.symm)]

theorem nodup_keys_foldl (image : NpImage) (inc : Bool)
    (depth : DepthModelState) :
    ∀ (l : List Detection) (acc : List DetectedFood × List (String × ℚ)),
      (acc.2.map Prod.fst).Nodup →
      (((l.foldl (process_box image inc depth) acc).2).map Prod.fst).Nodup := by
  intro l
  induction l with
  | nil => intro acc h; exact h
  | cons d t ih =>
      intro acc h
      rw [List.foldl_cons]
      apply ih
      rcases hm : map_to_food_class d.class_name with _ | name
      · rwa [process_box_dropped (Or.inl hm)]
      · by_cases hne : name = ""
        · subst hne; rwa [process_box_dropped (Or.inr hm)]
        · cases inc with
          | false => simpa [process_box, hm, hne] using h
          | true =>
              have hpb : (process_box image true depth acc d).2
                  = dictInsert acc.2 name
                      (estimate_portion image name d.bbox depth) := by
                simp [process_box, hm, hne]
              rw [hpb]
              exact nodup_keys_dictInsert h


/-- C8: when several kept detections map to the same food key, the portion
map holds exactly one entry for that key (its keys are duplicate-free) —
the estimate computed from the detection processed last (the last producer
in processing order) — never a sum or aggregate. -/
theorem duplicate_key_last_wins (image : NpImage)
    (results : List (List Detection)) (depth : DepthModelState)
    (k : String) (det : Detection)
    (h : results.flatten.reverse.find? (producesKey k) = some det) :
    ((analyze_image image results true depth).portion_estimates).lookup k
        = some (estimate_portion image k det.bbox depth)
    ∧ (((analyze_image image results true depth).portion_estimates).map
        Prod.fst).Nodup := by
  constructor
  · show ((results.flatten.foldl
        (process_box image true depth) ([], [])).2).lookup k = _
    rw [lookup_foldl_process_box image depth k results.flatten ([], []), h]
  · exact nodup_keys_foldl image true depth results.flatten ([], []) (by simp)

/-- Witness for C8: two apple detections; the map holds exactly the
estimate of the second. -/
theorem duplicate_key_last_wins_witness :
    ((analyze_image img1000 [[appleDet, appleDet2]] true
        .absent).portion_estimates).lookup "apple"
        = some (estimate_portion img1000 "apple" appleDet2.bbox .absent)
    ∧ (((analyze_image img1000 [[appleDet, appleDet2]] true
        .absent).portion_estimates).map Prod.fst).Nodup :=
  duplicate_key_last_wins img1000 [[appleDet, appleDet2]] .absent "apple"
    appleDet2 (by decide)

theorem keys_in_names_foldl (image : NpImage) (inc : Bool)
    (depth : DepthModelState) :
    ∀ (l : List Detection) (acc : List DetectedFood × List (String × ℚ)),
      (∀ a ∈ acc.2.map Prod.fst, a ∈ acc.1.map DetectedFood.name) →
      ∀ a ∈ ((l.foldl (process_box image inc depth) acc).2).map Prod.fst,
        a ∈ ((l.foldl (process_box image inc depth) acc).1).map
          DetectedFood.name := by
  intro l
  induction l with
  | nil => intro acc h; exact h
  | cons d t ih =>
      intro acc h
      rw [List.foldl_cons]
      apply ih
      intro a ha
      rcases hm : map_to_food_class d.class_name with _ | name
      · rw [process_box_dropped (Or.inl hm)] at ha ⊢
        exact h a ha
      · by_cases hne : name = ""
        · subst hne
          rw [process_box_dropped (Or.inr hm)] at ha ⊢
          exact h a ha
        · cases inc with
          | false =>
              have ha' : a ∈ acc.2.map Prod.fst := by
                simpa [process_box, hm, hne] using ha
              have hgoal := h a ha'
              simp [process_box, hm, hne, hgoal]
          | true =>
              have ha' : a ∈ (dictInsert acc.2 name
                  (estimate_portion image name d.bbox depth)).map
                    Prod.fst := by
                simpa [process_box, hm, hne] using ha
              rcases mem_keys_dictInsert.mp ha' with hmem | rfl
              · have hgoal := h a hmem
                simp [process_box, hm, hne, hgoal]
              · simp [process_box, hm, hne]

/-- C9: every food key appearing in the returned `portion_estimates`
mapping is the name of at least one entry of `detected_foods`. -/
theorem portion_keys_are_detected (image : NpImage)
    (results : List (List Detection)) (inc : Bool)
    (depth : DepthModelState) (k : String)
    (h : k ∈ ((analyze_image image results inc
        depth).portion_estimates).map Prod.fst) :
    k ∈ ((analyze_image image results inc depth).detected_foods).map
      DetectedFood.name :=
  keys_in_names_foldl image inc depth results.flatten ([], [])
    (by simp) k h

/-- Witness for C9 at the apple scenario. -/
theorem portion_keys_are_detected_witness :
    "apple" ∈ ((analyze_image img1000 [[appleDet]] true
        .absent).detected_foods).map DetectedFood.name :=
  portion_keys_are_detected img1000 [[appleDet]] true .absent "apple"
    (by decide)

end FoodDetection
